import Mathlib

/-!
Shallow embedding of `internal/runner/runner.go` from the go-prettier repository,
and proofs about its configuration discovery, config loading, per-file formatting
and run aggregation logic.

Modelling conventions:
* An absolute filesystem path is the list of its components from the root
  (`[]` is the root directory `/`); `filepath.Join dir name` is `dir ++ [name]`
  and `filepath.Dir` drops the last component (the root is its own parent).
* File bytes are `List Nat`.
* External collaborators (the wasm formatting engine, the YAML/TOML decoders,
  the editorconfig parser, the OS filesystem) are oracles passed as function
  arguments: `statFn` returns the permission mode when stat succeeds, `readFn`
  the contents when reading succeeds, and the decoders return `none` exactly
  when Go's decoders return an error.
-/

namespace GoPrettier

/-- An absolute path as its components from the filesystem root. -/
abbrev Path := List String

/-- File contents as a byte sequence. -/
abbrev Bytes := List Nat

/-- Inner loop of `findConfigFile` (runner.go:233-244).  Go's loop steps
`dir` to `filepath.Dir(dir)` — dropping the LAST component — and stops when the
parent equals the directory (the root).  We realize that walk by structural
recursion over the REVERSED component list: `findUp stat name rev` handles the
directory `rev.reverse`, and stepping to the parent is taking the tail of
`rev`. -/
def findUp (stat : Path → Bool) (name : String) : Path → Option Path
  | [] => if stat ([] ++ [name]) then some ([] ++ [name]) else none
  | a :: rest =>
    if stat ((a :: rest).reverse ++ [name]) then some ((a :: rest).reverse ++ [name])
    else findUp stat name rest

/-- `findConfigFile` (runner.go:227-245): starting at `cwd` and walking upward
through ancestor directories, return the joined path of the first directory in
which a stat of `name` succeeds, or `none` (Go: the empty string) when no
ancestor up to the root contains it. -/
def findConfigFile (stat : Path → Bool) (name : String) (dir : Path) : Option Path :=
  findUp stat name dir.reverse

/-- Helper for `ancestors`: the ancestor chain of `rev.reverse`, nearest first. -/
def ancestorsRev : Path → List Path
  | [] => [[]]
  | a :: rest => (a :: rest).reverse :: ancestorsRev rest

/-- The chain of ancestor directories of `dir`, starting with `dir` itself and
ending with the root, ordered nearest-first.  This is the sequence of values the
`dir` variable takes in the loop of `findConfigFile`. -/
def ancestors (dir : Path) : List Path := ancestorsRev dir.reverse

/-- The fixed ordered list of conventional config filenames (runner.go:107). -/
def prettierrcNames : List String :=
  [".prettierrc", ".prettierrc.json", ".prettierrc.yaml", ".prettierrc.yml", ".prettierrc.toml"]

/-- Config discovery as `Run` performs it (runner.go:106-116): for each
conventional filename in the fixed list order, search the whole ancestor chain
with `findConfigFile`; the first filename found anywhere wins (the loop breaks
at the first non-empty result). -/
def discoverConfigFile (stat : Path → Bool) (cwd : Path) : Option Path :=
  prettierrcNames.findSome? fun name => findConfigFile stat name cwd

/-- The discovery order claimed by the spec, stated for comparison with
`discoverConfigFile`: stop at the FIRST (nearest) ancestor directory that
contains any conventional filename, and only within that directory choose among
candidates by the fixed list order. -/
def discoverConfigFileClaim (stat : Path → Bool) (cwd : Path) : Option Path :=
  (ancestors cwd).findSome? fun d =>
    prettierrcNames.findSome? fun name =>
      if stat (d ++ [name]) then some (d ++ [name]) else none

/-- A value of Go's `any` as it appears in a decoded configuration document. -/
inductive CVal where
  | str (s : String)
  | num (n : Int)
  | boolean (b : Bool)
  deriving DecidableEq

/-- An untyped configuration document: Go's `map[string]any`, as an association
list without duplicate-key semantics beyond first-occurrence lookup. -/
abbrev Doc := List (String × CVal)

/-- Go map assignment `m[k] = v`: replace the binding of `k` if present,
otherwise append it. -/
def setKey (m : Doc) (k : String) (v : CVal) : Doc :=
  match m with
  | [] => [(k, v)]
  | (k', v') :: rest => if k' = k then (k, v) :: rest else (k', v') :: setKey rest k v

/-- Go map lookup `m[k]`. -/
def getKey (m : Doc) (k : String) : Option CVal :=
  match m with
  | [] => none
  | (k', v) :: rest => if k' = k then some v else getKey rest k

/-- Render a `Path` the way Go strings represent it, for the `filepath` value. -/
def pathString (p : Path) : String := "/" ++ String.intercalate "/" p

/-- Modelled from the spec: `fillEditorConfig` lives in a source file of this
repository that is not under `src/` (runner.go:159 calls it).  Per the spec
(sections 4.3-4.4), it maps the resolved editor-config definition's settings
onto the engine's option names in the merged document; we model the resolved
definition as a document whose keys are written into the merged document. -/
def fillEditorConfig (d : Doc) (m : Doc) : Doc :=
  d.foldl (fun acc kv => setKey acc kv.1 kv.2) m

/-- Modelled from the spec: `mergePrettierConfig` lives in a source file of this
repository that is not under `src/` (runner.go:163 calls it).  Per the spec
(section 4.4), it overlays the loaded formatter-config document onto the
editor-config-derived defaults, formatter keys taking precedence; per-file
glob-matched overrides are folded the same way and are not modelled further
(no claim proved here depends on them). -/
def mergePrettierConfig (m : Doc) (userCfg : Doc) (_filePath : Path) : Doc :=
  userCfg.foldl (fun acc kv => setKey acc kv.1 kv.2) m

/-- The merged configuration document built by `format` (runner.go:155-165):
editor-config defaults first, then the formatter-config overlay, and finally
`mergedCfg["filepath"] = path.filePath`. -/
def mergedConfig (eDef : Option Doc) (userCfg : Doc) (filePath : Path) : Doc :=
  let m0 : Doc := []
  let m1 := match eDef with
    | some d => fillEditorConfig d m0
    | none => m0
  let m2 := mergePrettierConfig m1 userCfg filePath
  setKey m2 "filepath" (CVal.str (pathString filePath))

/-- Outcome of one engine invocation (`rt.InstantiateModule`, runner.go:198):
`success out` models a nil error with `out` captured on stdout, `exit code`
models a `*sys.ExitError` with that exit code, and `fail` any other
instantiation error. -/
inductive EngineResult where
  | success (out : Bytes)
  | exit (code : Nat)
  | fail
  deriving DecidableEq

/-- The `expandedPath` struct produced by `expandPatterns` (whose source file is
not under `src/`); runner.go reads exactly these three fields.  `error` is the
resolution error string, empty when resolution succeeded. -/
structure ExpandedPath where
  filePath : Path
  ignoreUnknown : Bool
  error : String
  deriving DecidableEq

/-- The observable side effects of one `format` call: the file write performed
(output bytes and permission mode), the bytes printed to stdout, whether the
"no parser could be inferred" warning was logged, and whether the engine was
instantiated at all. -/
structure Effects where
  written : Option (Bytes × Nat)
  printed : Option Bytes
  warnedUnknown : Bool
  engineInvoked : Bool
  deriving DecidableEq

/-- No side effects. -/
def noEffects : Effects := ⟨none, none, false, false⟩

/-- The distinguishable errors `format` can return: `checkFailed` is the
sentinel `errCheckFailed` (runner.go:27), the others are the stat / read /
write failures and the wrapped engine failure. -/
inductive FormatError where
  | checkFailed
  | statError
  | readError
  | writeError
  | engineError
  deriving DecidableEq

/-- The configuration document `format` serializes and hands to the engine for
the file `p`: `mergedConfig` applied to the editorconfig definition looked up
for `p.filePath` (runner.go:156-161; `GetDefinitionForFilename` errors leave no
editor-config influence). -/
def formatConfig (p : ExpandedPath) (eCfg : Option (Path → Option Doc))
    (userCfg : Doc) : Doc :=
  let eDef : Option Doc := match eCfg with
    | some lookup => lookup p.filePath
    | none => none
  mergedConfig eDef userCfg p.filePath

/-- `format` (runner.go:154-225), as a pure function from the oracles and
inputs to the returned error (`none` is Go's nil) and the side effects.
`engine` is the wasm engine given the stdin bytes and the merged configuration;
`statFn p` is `os.Stat` returning the permission mode; `readFn p` is
`os.ReadFile`; `writeOk p` tells whether `os.WriteFile` on `p` succeeds;
`eCfg` is the parsed editorconfig as a per-file definition lookup
(`GetDefinitionForFilename`, errors folded into `none`). -/
def format (engine : Bytes → Doc → EngineResult) (statFn : Path → Option Nat)
    (readFn : Path → Option Bytes) (writeOk : Path → Bool)
    (p : ExpandedPath) (eCfg : Option (Path → Option Doc)) (userCfg : Doc)
    (check write ignoreUnknown : Bool) : Option FormatError × Effects :=
  let cfg := formatConfig p eCfg userCfg
  match statFn p.filePath with
  | none => (some .statError, noEffects)
  | some mode =>
    match readFn p.filePath with
    | none => (some .readError, noEffects)
    | some inBytes =>
      let invoked : Effects := { noEffects with engineInvoked := true }
      match engine inBytes cfg with
      | .exit code =>
        if code = 10 then
          (none, { invoked with warnedUnknown := !ignoreUnknown && !p.ignoreUnknown })
        else (some .engineError, invoked)
      | .fail => (some .engineError, invoked)
      | .success out =>
        if write then
          if writeOk p.filePath then
            let eff := { invoked with written := some (out, mode) }
            if check && inBytes ≠ out then (some .checkFailed, eff) else (none, eff)
          else (some .writeError, invoked)
        else if !check then
          (none, { invoked with printed := some out })
        else
          if inBytes ≠ out then (some .checkFailed, invoked) else (none, invoked)

/-- The errors `loadConfigFile` can return: a read failure of the config path,
or the sentinel `errInvalidConfigFile` (runner.go:28) when both decoders
fail. -/
inductive LoadError where
  | readError
  | invalidConfig
  deriving DecidableEq

/-- `loadConfigFile` (runner.go:247-271): read the file's bytes, try the YAML
decoder, then — only if YAML failed — the TOML decoder; return the first
successful decode, and otherwise the empty document together with the error
(Go returns the untouched empty `res` map alongside a non-nil error).
`yaml` and `toml` are the external decoders as oracles, `none` modelling a
decode error. -/
def loadConfigFile (readFn : Path → Option Bytes) (yaml toml : Bytes → Option Doc)
    (path : Path) : Doc × Option LoadError :=
  match readFn path with
  | none => ([], some .readError)
  | some bs =>
    match yaml bs with
    | some d => (d, none)
    | none =>
      match toml bs with
      | some d => (d, none)
      | none => ([], some .invalidConfig)

/-- The fields of `RunArgs` (runner.go:63-75) that `Run` itself consumes.
`config` models the `Config` string, `none` standing for the empty string.
The pattern/ignore fields are consumed only by `expandPatterns`, whose source
file is not under `src/`; `Run` below therefore takes the expanded path list
directly. -/
structure RunArgs where
  cwd : Path
  config : Option Path
  noConfig : Bool
  noEditorConfig : Bool
  check : Bool
  ignoreUnknown : Bool
  write : Bool

/-- The formatter-config resolution step of `Run` (runner.go:97-117): an
explicit config path is loaded and its load error returned as `Run`'s error;
`NoConfig` skips loading; otherwise the discovery loop finds the first
conventional filename in fixed list order anywhere on the ancestor chain,
loads it, and a load error is again returned as `Run`'s error.  `.ok` carries
the resulting `pCfg` document (empty when nothing was found). -/
def resolveUserConfig (stat : Path → Bool) (readFn : Path → Option Bytes)
    (yaml toml : Bytes → Option Doc) (args : RunArgs) : Except LoadError Doc :=
  match args.config with
  | some cfgPath =>
    match loadConfigFile readFn yaml toml cfgPath with
    | (_, some e) => .error e
    | (cfg, none) => .ok cfg
  | none =>
    if args.noConfig then .ok []
    else
      match discoverConfigFile stat args.cwd with
      | none => .ok []
      | some p =>
        match loadConfigFile readFn yaml toml p with
        | (_, some e) => .error e
        | (cfg, none) => .ok cfg

/-- The editor-config resolution step of `Run` (runner.go:84-95): best effort —
the nearest `.editorconfig` is located with the same upward search, and open or
parse failures are swallowed, leaving no editor-config influence.  `ecParse`
models `editorconfig.Parse` producing the per-file definition lookup. -/
def resolveEditorConfig (stat : Path → Bool) (readFn : Path → Option Bytes)
    (ecParse : Bytes → Option (Path → Option Doc)) (args : RunArgs) :
    Option (Path → Option Doc) :=
  if args.noEditorConfig then none
  else
    match findConfigFile stat ".editorconfig" args.cwd with
    | none => none
    | some p =>
      match readFn p with
      | none => none
      | some bs => ecParse bs

/-- The result of one per-file task launched by `Run` (runner.go:129-139):
either the resolution error short-circuit, or the outcome of `format`. -/
inductive TaskResult where
  | resolutionError (msg : String)
  | formatted (err : Option FormatError) (eff : Effects)
  deriving DecidableEq

/-- One per-file task (the closure passed to `g.Go`, runner.go:129-139): a path
carrying a non-empty resolution error is logged and returned as that file's
error without calling `format`; otherwise `format` runs. -/
def runTask (engine : Bytes → Doc → EngineResult) (statFn : Path → Option Nat)
    (readFn : Path → Option Bytes) (writeOk : Path → Bool)
    (eCfg : Option (Path → Option Doc)) (userCfg : Doc) (args : RunArgs)
    (p : ExpandedPath) : TaskResult :=
  if p.error ≠ "" then .resolutionError p.error
  else
    let r := format engine statFn readFn writeOk p eCfg userCfg
      args.check args.write args.ignoreUnknown
    .formatted r.1 r.2

/-- The error a task hands to the errgroup (`nil` when the task succeeded). -/
inductive RunError where
  | resolution (msg : String)
  | file (e : FormatError)
  deriving DecidableEq

/-- The error returned by one task, as seen by `g.Wait`. -/
def taskErr : TaskResult → Option RunError
  | .resolutionError msg => some (.resolution msg)
  | .formatted none _ => none
  | .formatted (some e) _ => some (.file e)

/-- Whether a task's error increments `numCheckFailed`
(`errors.Is(err, errCheckFailed)`, runner.go:135). -/
def taskCheckFailed : TaskResult → Bool
  | .formatted (some .checkFailed) _ => true
  | _ => false

/-- The observable outcome of a completed `Run` (runner.go:119-151): the
per-file task results, the final check-failure counter, the check-mode summary
warning (`some n` models the "Code style issues found in n files" line), the
check-mode all-clean line, and the error returned by `g.Wait` (the model
reports the first erroring task in list order; the errgroup guarantees a
non-nil result exactly when some task errs). -/
structure RunReport where
  tasks : List TaskResult
  numCheckFailed : Nat
  summaryWarned : Option Nat
  allClean : Bool
  err : Option RunError
  deriving DecidableEq

/-- `Run` (runner.go:77-152) over already-expanded paths (`expandPatterns`'s
source file is not under `src/`; its output list is taken as an argument):
resolve the editor config (best effort), resolve the formatter config —
aborting with its error when loading fails —, run every per-file task,
count the `errCheckFailed` results, and emit the check-mode summary. -/
def Run (engine : Bytes → Doc → EngineResult) (statFn : Path → Option Nat)
    (readFn : Path → Option Bytes) (writeOk : Path → Bool)
    (ecParse : Bytes → Option (Path → Option Doc))
    (yaml toml : Bytes → Option Doc)
    (args : RunArgs) (paths : List ExpandedPath) : Except LoadError RunReport :=
  let statB : Path → Bool := fun q => (statFn q).isSome
  let eCfg := resolveEditorConfig statB readFn ecParse args
  match resolveUserConfig statB readFn yaml toml args with
  | .error e => .error e
  | .ok userCfg =>
    let tasks := paths.map (runTask engine statFn readFn writeOk eCfg userCfg args)
    let n := (tasks.filter taskCheckFailed).length
    .ok {
      tasks := tasks
      numCheckFailed := n
      summaryWarned := if args.check && n != 0 then some n else none
      allClean := args.check && n == 0
      err := tasks.findSome? taskErr
    }

/-! ### Helper lemmas -/

/-- The upward walk visits exactly the ancestor chain: `findUp` over the
reversed components is the first hit of the stat predicate along
`ancestorsRev`. -/
theorem findUp_eq (stat : Path → Bool) (name : String) (rev : Path) :
    findUp stat name rev =
      (ancestorsRev rev).findSome? fun d =>
        if stat (d ++ [name]) then some (d ++ [name]) else none := by
  induction rev with
  | nil =>
    simp only [findUp, ancestorsRev, List.findSome?_cons, List.findSome?_nil,
      List.nil_append]
    cases h : stat [name] <;> simp [h]
  | cons a rest ih =>
    simp only [findUp, ancestorsRev, List.findSome?_cons, ih]
    cases h : stat ((a :: rest).reverse ++ [name]) <;> simp [h]

/-- `findConfigFile` returns the first directory along the ancestor chain
(nearest first) whose stat of `name` succeeds, joined with `name`. -/
theorem findConfigFile_eq (stat : Path → Bool) (name : String) (dir : Path) :
    findConfigFile stat name dir =
      (ancestors dir).findSome? fun d =>
        if stat (d ++ [name]) then some (d ++ [name]) else none :=
  findUp_eq stat name dir.reverse

/-- First-hit characterization of `List.findSome?`: it returns `some b` exactly
when some position yields `some b` while every earlier position yields
`none`. -/
theorem findSome?_eq_some_iff {α β : Type} (l : List α) (f : α → Option β) (b : β) :
    l.findSome? f = some b ↔
      ∃ i, ∃ hi : i < l.length, f (l.get ⟨i, hi⟩) = some b ∧
        ∀ j, ∀ hj : j < l.length, j < i → f (l.get ⟨j, hj⟩) = none := by
  induction l with
  | nil => simp [List.findSome?_nil]
  | cons a as ih =>
    cases h : f a with
    | some b' =>
      simp only [List.findSome?_cons, h]
      constructor
      · intro hb
        refine ⟨0, by simp, ?_, ?_⟩
        · show f a = some b
          rw [h]; exact hb
        · intro j hj hj0
          exact absurd hj0 (Nat.not_lt_zero j)
      · rintro ⟨i, hi, hival, hmin⟩
        cases i with
        | zero =>
          have : f a = some b := hival
          rw [h] at this; exact this
        | succ k =>
          have h0 : f a = none := hmin 0 (by omega) (by omega)
          rw [h] at h0; cases h0
    | none =>
      simp only [List.findSome?_cons, h]
      rw [ih]
      constructor
      · rintro ⟨i, hi, hival, hmin⟩
        refine ⟨i + 1, by simp only [List.length_cons]; omega, hival, ?_⟩
        intro j hj hji
        cases j with
        | zero => exact h
        | succ k =>
          exact hmin k (by simp only [List.length_cons] at hj; omega) (by omega)
      · rintro ⟨i, hi, hival, hmin⟩
        cases i with
        | zero =>
          have : f a = some b := hival
          rw [h] at this; cases this
        | succ k =>
          refine ⟨k, by simp only [List.length_cons] at hi; omega, hival, ?_⟩
          intro j hj hjk
          exact hmin (j + 1) (by simp only [List.length_cons]; omega) (by omega)

/-- `List.findSome?` returns `none` exactly when every element does. -/
theorem findSome?_eq_none_iff {α β : Type} (l : List α) (f : α → Option β) :
    l.findSome? f = none ↔ ∀ a ∈ l, f a = none := by
  induction l with
  | nil => simp [List.findSome?_nil]
  | cons a as ih =>
    cases h : f a with
    | some b => simp [List.findSome?_cons, h]
    | none => simp [List.findSome?_cons, h, ih]

/-- Looking up a key just assigned with `setKey` yields the assigned value. -/
theorem getKey_setKey (m : Doc) (k : String) (v : CVal) :
    getKey (setKey m k v) k = some v := by
  induction m with
  | nil => simp [setKey, getKey]
  | cons kv rest ih =>
    obtain ⟨k', v'⟩ := kv
    by_cases h : k' = k
    · simp [setKey, getKey, h]
    · simp [setKey, getKey, h, ih]

/-- The ancestor chain starts at the directory itself. -/
theorem ancestors_head (dir : Path) : (ancestors dir).head? = some dir := by
  unfold ancestors
  cases hrev : dir.reverse with
  | nil =>
    have : dir = [] := by simpa using congrArg List.reverse hrev
    simp [ancestorsRev, this]
  | cons a rest =>
    have : (a :: rest).reverse = dir := by
      rw [← hrev, List.reverse_reverse]
    simp [ancestorsRev, this]

/-- A task that increments the check counter necessarily handed `g.Wait` a
non-nil error. -/
theorem taskCheckFailed_taskErr (t : TaskResult) (h : taskCheckFailed t = true) :
    taskErr t = some (.file .checkFailed) := by
  match t with
  | .resolutionError msg => simp [taskCheckFailed] at h
  | .formatted none eff => simp [taskCheckFailed] at h
  | .formatted (some e) eff =>
    cases e <;> simp_all [taskCheckFailed, taskErr]

/-- Whether a path, in plain check mode, ends up with bytes differing from the
engine output: resolution succeeded, stat and read succeed, the engine
succeeds, and the output differs from the input. -/
def checkMismatch (engine : Bytes → Doc → EngineResult) (statFn : Path → Option Nat)
    (readFn : Path → Option Bytes) (eCfg : Option (Path → Option Doc))
    (userCfg : Doc) (p : ExpandedPath) : Bool :=
  p.error == "" &&
    match statFn p.filePath, readFn p.filePath with
    | some _, some inBytes =>
      match engine inBytes (formatConfig p eCfg userCfg) with
      | .success out => inBytes != out
      | _ => false
    | _, _ => false

/-- In plain check mode (`Check` true, `Write` false) a task increments the
counter exactly when its input bytes differ from the engine's output bytes. -/
theorem taskCheckFailed_eq_checkMismatch (engine : Bytes → Doc → EngineResult)
    (statFn : Path → Option Nat) (readFn : Path → Option Bytes)
    (writeOk : Path → Bool) (eCfg : Option (Path → Option Doc)) (userCfg : Doc)
    (args : RunArgs) (p : ExpandedPath)
    (hcheck : args.check = true) (hwrite : args.write = false) :
    taskCheckFailed (runTask engine statFn readFn writeOk eCfg userCfg args p) =
      checkMismatch engine statFn readFn eCfg userCfg p := by
  by_cases herr : p.error = ""
  · cases hstat : statFn p.filePath with
    | none => simp [runTask, checkMismatch, format, taskCheckFailed, herr, hstat]
    | some mode =>
      cases hread : readFn p.filePath with
      | none =>
        simp [runTask, checkMismatch, format, taskCheckFailed, herr, hstat, hread]
      | some inBytes =>
        cases heng : engine inBytes (formatConfig p eCfg userCfg) with
        | success out =>
          simp only [runTask, checkMismatch, format, herr, hstat, hread, heng,
            hcheck, hwrite]
          by_cases hne : inBytes = out <;>
            simp [taskCheckFailed, herr, hne]
        | exit code =>
          by_cases h10 : code = 10 <;>
            simp [runTask, checkMismatch, format, taskCheckFailed, herr, hstat,
              hread, heng, h10]
        | fail =>
          simp [runTask, checkMismatch, format, taskCheckFailed, herr, hstat,
            hread, heng]
  · simp [runTask, checkMismatch, taskCheckFailed, herr]

/-! ### Concrete oracles used by witnesses and counterexamples -/

/-- A filesystem in which exactly `/a/b/.prettierrc.json` and `/a/.prettierrc`
exist: a later-listed conventional name in the working directory `/a/b` and an
earlier-listed one in the more distant ancestor `/a`. -/
def statNearFar : Path → Bool := fun p =>
  p == ["a", "b", ".prettierrc.json"] || p == ["a", ".prettierrc"]

/-- A filesystem in which exactly `/r/.conf` exists. -/
def statConf : Path → Bool := fun p => p == ["r", ".conf"]

/-! ### Claim theorems -/

/-- C10: `findConfigFile` is total and terminating; the walk starts at the
working directory itself; it returns `none` (Go: the empty string) exactly when
no ancestor up to the root contains the named entry, and otherwise the join of
the named entry with the nearest ancestor directory in which the stat succeeds
(`ancestors dir` lists the walk's directories nearest-first, so position `i`
with all earlier positions failing is exactly the nearest hit). -/
theorem findConfigFile_nearest_ancestor (stat : Path → Bool) (name : String)
    (dir : Path) :
    (ancestors dir).head? = some dir ∧
    (findConfigFile stat name dir = none ↔
      ∀ d ∈ ancestors dir, stat (d ++ [name]) = false) ∧
    (∀ p, findConfigFile stat name dir = some p →
      ∃ i, ∃ hi : i < (ancestors dir).length,
        p = (ancestors dir).get ⟨i, hi⟩ ++ [name] ∧
        stat ((ancestors dir).get ⟨i, hi⟩ ++ [name]) = true ∧
        ∀ j, ∀ hj : j < (ancestors dir).length, j < i →
          stat ((ancestors dir).get ⟨j, hj⟩ ++ [name]) = false) := by
  refine ⟨ancestors_head dir, ?_, ?_⟩
  · rw [findConfigFile_eq, findSome?_eq_none_iff]
    constructor
    · intro h d hd
      have hfd := h d hd
      cases hs : stat (d ++ [name]) with
      | false => rfl
      | true => simp [hs] at hfd
    · intro h d hd
      simp [h d hd]
  · intro p hp
    rw [findConfigFile_eq, findSome?_eq_some_iff] at hp
    obtain ⟨i, hi, hival, hmin⟩ := hp
    cases hs : stat ((ancestors dir).get ⟨i, hi⟩ ++ [name]) with
    | false =>
      rw [hs] at hival
      simp at hival
    | true =>
      rw [if_pos hs] at hival
      injection hival with hx
      refine ⟨i, hi, hx.symm, hs, ?_⟩
      intro j hj hji
      have hfj := hmin j hj hji
      cases ht : stat ((ancestors dir).get ⟨j, hj⟩ ++ [name]) with
      | false => rfl
      | true =>
        rw [if_pos ht] at hfj
        simp at hfj

/-- C10 witness: in the filesystem where exactly `/r/.conf` exists, searching
for `.conf` from `/r/s` finds it at the ancestor `/r`. -/
theorem findConfigFile_nearest_ancestor_witness :
    ∃ i, ∃ hi : i < (ancestors (["r", "s"] : Path)).length,
      (["r", ".conf"] : Path) = (ancestors (["r", "s"] : Path)).get ⟨i, hi⟩ ++ [".conf"] ∧
      statConf ((ancestors (["r", "s"] : Path)).get ⟨i, hi⟩ ++ [".conf"]) = true ∧
      ∀ j, ∀ hj : j < (ancestors (["r", "s"] : Path)).length, j < i →
        statConf ((ancestors (["r", "s"] : Path)).get ⟨j, hj⟩ ++ [".conf"]) = false :=
  (findConfigFile_nearest_ancestor statConf ".conf" ["r", "s"]).2.2
    ["r", ".conf"] (by decide)

/-- C1 counterexample: with `/a/b/.prettierrc.json` and `/a/.prettierrc` on
disk and working directory `/a/b`, the code picks the distant `/a/.prettierrc`
while the claim's nearest-directory-first discovery picks
`/a/b/.prettierrc.json`. -/
theorem discovery_order_counterexample :
    discoverConfigFile statNearFar ["a", "b"] = some ["a", ".prettierrc"] ∧
    discoverConfigFileClaim statNearFar ["a", "b"] =
      some ["a", "b", ".prettierrc.json"] ∧
    discoverConfigFile statNearFar ["a", "b"] ≠
      discoverConfigFileClaim statNearFar ["a", "b"] := by
  decide

/-- C1 amended: discovery iterates the conventional filenames in fixed list
order as the OUTER loop, searching the entire ancestor chain for each name;
the first name in list order found in any ancestor directory wins (within a
single name the nearest ancestor wins, by `findConfigFile`), so an
earlier-listed filename in a distant ancestor is preferred over a later-listed
filename in a nearer directory. -/
theorem discoverConfigFile_name_major (stat : Path → Bool) (cwd : Path) (p : Path) :
    discoverConfigFile stat cwd = some p ↔
      ∃ i, ∃ hi : i < prettierrcNames.length,
        findConfigFile stat (prettierrcNames.get ⟨i, hi⟩) cwd = some p ∧
        ∀ j, ∀ hj : j < prettierrcNames.length, j < i →
          findConfigFile stat (prettierrcNames.get ⟨j, hj⟩) cwd = none :=
  findSome?_eq_some_iff prettierrcNames (fun n => findConfigFile stat n cwd) p

/-- C1 amended witness: in the `statNearFar` filesystem the discovered file is
the one named by the first list entry (`.prettierrc`, found in the distant
ancestor), every earlier entry having been found nowhere. -/
theorem discoverConfigFile_name_major_witness :
    ∃ i, ∃ hi : i < prettierrcNames.length,
      findConfigFile statNearFar (prettierrcNames.get ⟨i, hi⟩) ["a", "b"] =
        some ["a", ".prettierrc"] ∧
      ∀ j, ∀ hj : j < prettierrcNames.length, j < i →
        findConfigFile statNearFar (prettierrcNames.get ⟨j, hj⟩) ["a", "b"] = none :=
  (discoverConfigFile_name_major statNearFar ["a", "b"] ["a", ".prettierrc"]).mp
    (by decide)

/-- An engine oracle that always reports a hard instantiation failure. -/
def engineFailAll : Bytes → Doc → EngineResult := fun _ _ => .fail

/-- An engine oracle that always succeeds with the single output byte `2`. -/
def engineOut2 : Bytes → Doc → EngineResult := fun _ _ => .success [2]

/-- An engine oracle that always terminates with exit status code 10. -/
def engineExit10 : Bytes → Doc → EngineResult := fun _ _ => .exit 10

/-- A stat oracle: exactly `/w/.prettierrc` exists, mode 420 (0o644). -/
def statW : Path → Option Nat := fun p =>
  if p == ["w", ".prettierrc"] then some 420 else none

/-- A read oracle: `/w/.prettierrc` holds the bytes `hi`. -/
def readW : Path → Option Bytes := fun p =>
  if p == ["w", ".prettierrc"] then some [104, 105] else none

/-- A stat oracle: exactly `/f.js` exists, mode 420. -/
def statF : Path → Option Nat := fun p => if p == ["f.js"] then some 420 else none

/-- A read oracle: `/f.js` holds the single byte `1`. -/
def readF : Path → Option Bytes := fun p => if p == ["f.js"] then some [1] else none

/-- A YAML decoder oracle that rejects every input. -/
def yamlNone : Bytes → Option Doc := fun _ => none

/-- A TOML decoder oracle that rejects every input. -/
def tomlNone : Bytes → Option Doc := fun _ => none

/-- An editorconfig parser oracle that rejects every input. -/
def ecParseNone : Bytes → Option (Path → Option Doc) := fun _ => none

/-- A write oracle for which every file write succeeds. -/
def writeOkAll : Path → Bool := fun _ => true

/-- Run arguments: working directory `/w`, no explicit config, config loading
enabled, print mode. -/
def argsDiscover : RunArgs :=
  { cwd := ["w"], config := none, noConfig := false, noEditorConfig := false,
    check := false, ignoreUnknown := false, write := false }

/-- The expanded path of `/f.js`, resolved without error. -/
def pFile : ExpandedPath :=
  { filePath := ["f.js"], ignoreUnknown := false, error := "" }

/-- C2 counterexample: with no explicit config path and config loading enabled,
an auto-discovered config file (`/w/.prettierrc`) that both decoders reject
makes `Run` return the invalid-config error instead of proceeding with an
empty configuration. -/
theorem autoconfig_error_counterexample :
    argsDiscover.config = none ∧ argsDiscover.noConfig = false ∧
    Run engineFailAll statW readW writeOkAll ecParseNone yamlNone tomlNone
      argsDiscover [] = .error .invalidConfig := by
  refine ⟨rfl, rfl, ?_⟩
  rfl

/-- C2 amended: an unreadable or undecodable config file is logged as a warning
by `loadConfigFile`, which returns an empty document together with the error;
but `Run` returns that error — aborting the run — both when the config path was
explicitly supplied and when it was auto-discovered. -/
theorem run_config_load_error_fatal (engine : Bytes → Doc → EngineResult)
    (statFn : Path → Option Nat) (readFn : Path → Option Bytes)
    (writeOk : Path → Bool) (ecParse : Bytes → Option (Path → Option Doc))
    (yaml toml : Bytes → Option Doc) (args : RunArgs) (paths : List ExpandedPath) :
    (∀ cp d e, args.config = some cp →
      loadConfigFile readFn yaml toml cp = (d, some e) →
      Run engine statFn readFn writeOk ecParse yaml toml args paths = .error e) ∧
    (∀ q d e, args.config = none → args.noConfig = false →
      discoverConfigFile (fun x => (statFn x).isSome) args.cwd = some q →
      loadConfigFile readFn yaml toml q = (d, some e) →
      Run engine statFn readFn writeOk ecParse yaml toml args paths = .error e) := by
  constructor
  · intro cp d e hcp hload
    simp [Run, resolveUserConfig, hcp, hload]
  · intro q d e hcp hnc hdisc hload
    simp [Run, resolveUserConfig, hcp, hnc, hdisc, hload]

/-- C2 amended witness: the concrete auto-discovery scenario from the
counterexample, derived by applying the amended theorem. -/
theorem run_config_load_error_fatal_witness :
    Run engineFailAll statW readW writeOkAll ecParseNone yamlNone tomlNone
      argsDiscover [] = .error .invalidConfig :=
  (run_config_load_error_fatal engineFailAll statW readW writeOkAll ecParseNone
      yamlNone tomlNone argsDiscover []).2 ["w", ".prettierrc"] [] .invalidConfig
    rfl rfl (by decide) rfl

/-- C3 counterexample: with both `Write` and `Check` requested, a successful
file whose output differs from its input is BOTH overwritten in place and
counted by the check comparison — two of the supposedly mutually exclusive
actions happen for the same file. -/
theorem write_check_overlap_counterexample :
    (format engineOut2 statF readF writeOkAll pFile none [] true true false).1 =
      some .checkFailed ∧
    (format engineOut2 statF readF writeOkAll pFile none [] true true false).2.written =
      some ([2], 420) := by
  exact ⟨rfl, rfl⟩

/-- C3 amended: for every file whose engine invocation succeeds, writing and
printing are mutually exclusive — the file is overwritten exactly when write
mode is requested (and the write succeeds), and the output goes to stdout
exactly when neither write nor check mode is requested — but the check
comparison runs whenever check mode is requested, even together with write
mode, so a file can be both overwritten and counted as check-failed. -/
theorem format_output_modes (engine : Bytes → Doc → EngineResult)
    (statFn : Path → Option Nat) (readFn : Path → Option Bytes)
    (writeOk : Path → Bool) (p : ExpandedPath) (eCfg : Option (Path → Option Doc))
    (userCfg : Doc) (check write ignoreUnknown : Bool) (mode : Nat) (inB out : Bytes)
    (hstat : statFn p.filePath = some mode)
    (hread : readFn p.filePath = some inB)
    (heng : engine inB (formatConfig p eCfg userCfg) = .success out) :
    ((format engine statFn readFn writeOk p eCfg userCfg check write
        ignoreUnknown).2.written =
      if write && writeOk p.filePath then some (out, mode) else none) ∧
    ((format engine statFn readFn writeOk p eCfg userCfg check write
        ignoreUnknown).2.printed =
      if !write && !check then some out else none) ∧
    ((format engine statFn readFn writeOk p eCfg userCfg check write
        ignoreUnknown).1 = some .checkFailed ↔
      check = true ∧ inB ≠ out ∧ (write = true → writeOk p.filePath = true)) := by
  cases write <;> cases check <;> cases hw : writeOk p.filePath <;>
    (simp only [format, hstat, hread, heng]
     by_cases hne : inB = out <;> simp [hw, hne, noEffects])

/-- C3 amended witness: the write-and-check scenario of the counterexample,
derived by applying the amended theorem. -/
theorem format_output_modes_witness :
    ((format engineOut2 statF readF writeOkAll pFile none [] true true
        false).2.written =
      if true && writeOkAll pFile.filePath then some (([2] : Bytes), 420) else none) ∧
    ((format engineOut2 statF readF writeOkAll pFile none [] true true
        false).2.printed =
      if !true && !true then some ([2] : Bytes) else none) ∧
    ((format engineOut2 statF readF writeOkAll pFile none [] true true
        false).1 = some .checkFailed ↔
      true = true ∧ ([1] : Bytes) ≠ [2] ∧
        (true = true → writeOkAll pFile.filePath = true)) :=
  format_output_modes engineOut2 statF readF writeOkAll pFile none [] true true
    false 420 [1] [2] rfl rfl rfl

/-- C4: in check mode (`Write` false, `Check` true) `format` never writes the
file, whatever the stat, read and engine outcomes; and in write mode a
successful engine invocation with a successful write overwrites the file with
the engine's output bytes using the permission mode obtained from the stat done
before formatting. -/
theorem format_frame_effects (engine : Bytes → Doc → EngineResult)
    (statFn : Path → Option Nat) (readFn : Path → Option Bytes)
    (writeOk : Path → Bool) (p : ExpandedPath) (eCfg : Option (Path → Option Doc))
    (userCfg : Doc) (ignoreUnknown : Bool) :
    ((format engine statFn readFn writeOk p eCfg userCfg true false
        ignoreUnknown).2.written = none) ∧
    (∀ mode inB out check,
      statFn p.filePath = some mode →
      readFn p.filePath = some inB →
      engine inB (formatConfig p eCfg userCfg) = .success out →
      writeOk p.filePath = true →
      (format engine statFn readFn writeOk p eCfg userCfg check true
        ignoreUnknown).2.written = some (out, mode)) := by
  constructor
  · cases hstat : statFn p.filePath with
    | none => simp [format, hstat, noEffects]
    | some mode =>
      cases hread : readFn p.filePath with
      | none => simp [format, hstat, hread, noEffects]
      | some inB =>
        cases heng : engine inB (formatConfig p eCfg userCfg) with
        | success out =>
          simp only [format, hstat, hread, heng]
          by_cases hne : inB = out <;> simp [noEffects, hne]
        | exit code =>
          by_cases h10 : code = 10 <;>
            simp [format, hstat, hread, heng, noEffects, h10]
        | fail => simp [format, hstat, hread, heng, noEffects]
  · intro mode inB out check hstat hread heng hw
    cases check <;>
      (simp only [format, hstat, hread, heng]
       by_cases hne : inB = out <;> simp [hw, noEffects, hne])

/-- C4 witness: writing `/f.js` (contents `[1]`, mode 420) with engine output
`[2]` records a write of `[2]` with the original mode 420. -/
theorem format_frame_effects_witness :
    (format engineOut2 statF readF writeOkAll pFile none [] false true
      false).2.written = some (([2] : Bytes), 420) :=
  (format_frame_effects engineOut2 statF readF writeOkAll pFile none [] false).2
    420 [1] [2] false rfl rfl rfl rfl

/-- C5: an engine termination with exit status code 10 makes `format` return
success with no write and no print, only the warning flag set unless the path's
do-not-warn flag or the global ignore-unknown flag is set; every other
non-success termination (a different exit code or a hard failure) is returned
as the wrapped hard error for that file. -/
theorem format_exit10_skip (engine : Bytes → Doc → EngineResult)
    (statFn : Path → Option Nat) (readFn : Path → Option Bytes)
    (writeOk : Path → Bool) (p : ExpandedPath) (eCfg : Option (Path → Option Doc))
    (userCfg : Doc) (check write ignoreUnknown : Bool) (mode : Nat) (inB : Bytes)
    (hstat : statFn p.filePath = some mode)
    (hread : readFn p.filePath = some inB) :
    (engine inB (formatConfig p eCfg userCfg) = .exit 10 →
      format engine statFn readFn writeOk p eCfg userCfg check write ignoreUnknown =
        (none, { written := none, printed := none,
                 warnedUnknown := !ignoreUnknown && !p.ignoreUnknown,
                 engineInvoked := true })) ∧
    (∀ code, code ≠ 10 → engine inB (formatConfig p eCfg userCfg) = .exit code →
      (format engine statFn readFn writeOk p eCfg userCfg check write
        ignoreUnknown).1 = some .engineError) ∧
    (engine inB (formatConfig p eCfg userCfg) = .fail →
      (format engine statFn readFn writeOk p eCfg userCfg check write
        ignoreUnknown).1 = some .engineError) := by
  refine ⟨?_, ?_, ?_⟩
  · intro heng
    simp [format, hstat, hread, heng, noEffects]
  · intro code hcode heng
    simp [format, hstat, hread, heng, hcode, noEffects]
  · intro heng
    simp [format, hstat, hread, heng, noEffects]

/-- C5 witness: an engine that exits with status 10 on `/f.js` yields success,
no write, no print, and the warning (neither suppression flag set). -/
theorem format_exit10_skip_witness :
    format engineExit10 statF readF writeOkAll pFile none [] false false false =
      (none, { written := none, printed := none,
               warnedUnknown := !false && !pFile.ignoreUnknown,
               engineInvoked := true }) :=
  (format_exit10_skip engineExit10 statF readF writeOkAll pFile none [] false
    false false 420 [1] rfl rfl).1 rfl

/-- Run arguments for a plain check run: `Check` true, `Write` false, config
and editorconfig loading disabled. -/
def argsCheck : RunArgs :=
  { cwd := ["w"], config := none, noConfig := true, noEditorConfig := true,
    check := true, ignoreUnknown := false, write := false }

/-- With the summary flag set, a positive check counter forces the summary
warning carrying the count and a non-nil aggregate error. -/
theorem summary_aux (tasks : List TaskResult) (b : Bool) (hb : b = true)
    (hn : 0 < (tasks.filter taskCheckFailed).length) :
    (if b && ((tasks.filter taskCheckFailed).length != 0) then
        some ((tasks.filter taskCheckFailed).length) else none) =
      some ((tasks.filter taskCheckFailed).length) ∧
    tasks.findSome? taskErr ≠ none := by
  constructor
  · have hne0 : ((tasks.filter taskCheckFailed).length != 0) = true := by
      simp only [bne_iff_ne, ne_eq]
      omega
    rw [hb, hne0]
    rfl
  · intro hnone
    rw [findSome?_eq_none_iff] at hnone
    rw [List.length_pos] at hn
    obtain ⟨t, ht⟩ := List.exists_mem_of_ne_nil _ hn
    have hmem := List.mem_filter.mp ht
    have hcontra := hnone t hmem.1
    rw [taskCheckFailed_taskErr t hmem.2] at hcontra
    cases hcontra

/-- C6: in plain check mode the counter ends up exactly at the number of files
whose resolution succeeded, whose stat, read and engine invocation succeeded,
and whose input bytes differ from the engine's output bytes (`checkMismatch`);
resolution errors and hard stat/read/engine failures never count.  Every path
gets its own task (failures do not stop the others), and a non-zero final count
forces the summary warning with that count and a non-nil `Run` error. -/
theorem run_check_counter (engine : Bytes → Doc → EngineResult)
    (statFn : Path → Option Nat) (readFn : Path → Option Bytes)
    (writeOk : Path → Bool) (ecParse : Bytes → Option (Path → Option Doc))
    (yaml toml : Bytes → Option Doc) (args : RunArgs) (paths : List ExpandedPath)
    (userCfg : Doc)
    (hcheck : args.check = true) (hwrite : args.write = false)
    (huser : resolveUserConfig (fun q => (statFn q).isSome) readFn yaml toml args =
      .ok userCfg) :
    ∃ report, Run engine statFn readFn writeOk ecParse yaml toml args paths =
        .ok report ∧
      report.tasks = paths.map (runTask engine statFn readFn writeOk
        (resolveEditorConfig (fun q => (statFn q).isSome) readFn ecParse args)
        userCfg args) ∧
      report.numCheckFailed = paths.countP (checkMismatch engine statFn readFn
        (resolveEditorConfig (fun q => (statFn q).isSome) readFn ecParse args)
        userCfg) ∧
      (0 < report.numCheckFailed →
        report.summaryWarned = some report.numCheckFailed ∧
        report.err ≠ none) := by
  have hrun : Run engine statFn readFn writeOk ecParse yaml toml args paths =
      .ok { tasks := paths.map (runTask engine statFn readFn writeOk
              (resolveEditorConfig (fun q => (statFn q).isSome) readFn ecParse args)
              userCfg args)
            numCheckFailed := ((paths.map (runTask engine statFn readFn writeOk
              (resolveEditorConfig (fun q => (statFn q).isSome) readFn ecParse args)
              userCfg args)).filter taskCheckFailed).length
            summaryWarned :=
              if args.check &&
                  ((paths.map (runTask engine statFn readFn writeOk
                    (resolveEditorConfig (fun q => (statFn q).isSome) readFn ecParse
                      args) userCfg args)).filter taskCheckFailed).length != 0 then
                some (((paths.map (runTask engine statFn readFn writeOk
                  (resolveEditorConfig (fun q => (statFn q).isSome) readFn ecParse
                    args) userCfg args)).filter taskCheckFailed).length)
              else none
            allClean :=
              args.check &&
                ((paths.map (runTask engine statFn readFn writeOk
                  (resolveEditorConfig (fun q => (statFn q).isSome) readFn ecParse
                    args) userCfg args)).filter taskCheckFailed).length == 0
            err := (paths.map (runTask engine statFn readFn writeOk
              (resolveEditorConfig (fun q => (statFn q).isSome) readFn ecParse args)
              userCfg args)).findSome? taskErr } := by
    simp only [Run, huser]
  refine ⟨_, hrun, rfl, ?_, ?_⟩
  · show ((paths.map (runTask engine statFn readFn writeOk
        (resolveEditorConfig (fun q => (statFn q).isSome) readFn ecParse args)
        userCfg args)).filter taskCheckFailed).length = _
    rw [List.filter_map, List.length_map, ← List.countP_eq_length_filter]
    refine List.countP_congr fun q _ => ?_
    rw [Function.comp_apply,
      taskCheckFailed_eq_checkMismatch engine statFn readFn writeOk
        (resolveEditorConfig (fun x => (statFn x).isSome) readFn ecParse args)
        userCfg args q hcheck hwrite]
  · intro hn
    exact summary_aux
      (paths.map (runTask engine statFn readFn writeOk
        (resolveEditorConfig (fun q => (statFn q).isSome) readFn ecParse args)
        userCfg args))
      args.check hcheck hn

/-- C6 witness: one check-mode run over the single file `/f.js` (contents `[1]`,
engine output `[2]`), derived by applying the theorem. -/
theorem run_check_counter_witness :
    ∃ report, Run engineOut2 statF readF writeOkAll ecParseNone yamlNone tomlNone
        argsCheck [pFile] = .ok report ∧
      report.tasks = [pFile].map (runTask engineOut2 statF readF writeOkAll
        (resolveEditorConfig (fun q => (statF q).isSome) readF ecParseNone argsCheck)
        [] argsCheck) ∧
      report.numCheckFailed = [pFile].countP (checkMismatch engineOut2 statF readF
        (resolveEditorConfig (fun q => (statF q).isSome) readF ecParseNone argsCheck)
        []) ∧
      (0 < report.numCheckFailed →
        report.summaryWarned = some report.numCheckFailed ∧
        report.err ≠ none) :=
  run_check_counter engineOut2 statF readF writeOkAll ecParseNone yamlNone tomlNone
    argsCheck [pFile] [] rfl rfl rfl

/-- C7: the configuration document `format` hands to the engine always carries
the `filepath` key bound to the file's path — it is assigned last, after the
editor-config defaults and the formatter-config overlay, so it overrides any
user-supplied `filepath` value in `userCfg`. -/
theorem formatConfig_filepath (p : ExpandedPath) (eCfg : Option (Path → Option Doc))
    (userCfg : Doc) :
    getKey (formatConfig p eCfg userCfg) "filepath" =
      some (CVal.str (pathString p.filePath)) := by
  unfold formatConfig mergedConfig
  exact getKey_setKey _ _ _

/-- C8: given that the config path's bytes are readable, `loadConfigFile`
returns the YAML decode when YAML succeeds; tries TOML only when YAML fails,
returning its decode on success; and when both decoders fail returns the
invalid-config error together with the empty document. -/
theorem loadConfigFile_decoder_order (readFn : Path → Option Bytes)
    (yaml toml : Bytes → Option Doc) (path : Path) (bs : Bytes)
    (hread : readFn path = some bs) :
    (∀ d, yaml bs = some d → loadConfigFile readFn yaml toml path = (d, none)) ∧
    (∀ d, yaml bs = none → toml bs = some d →
      loadConfigFile readFn yaml toml path = (d, none)) ∧
    (yaml bs = none → toml bs = none →
      loadConfigFile readFn yaml toml path = ([], some .invalidConfig)) := by
  refine ⟨?_, ?_, ?_⟩
  · intro d hy
    simp [loadConfigFile, hread, hy]
  · intro d hy ht
    simp [loadConfigFile, hread, hy, ht]
  · intro hy ht
    simp [loadConfigFile, hread, hy, ht]

/-- A YAML decoder oracle that accepts exactly the bytes `hi`, decoding them to
a one-key document. -/
def yamlHi : Bytes → Option Doc := fun bs =>
  if bs == [104, 105] then some [("tabWidth", CVal.num 4)] else none

/-- C8 witness: loading `/w/.prettierrc` (bytes `hi`) with a YAML decoder that
accepts them returns that decode with no error. -/
theorem loadConfigFile_decoder_order_witness :
    loadConfigFile readW yamlHi tomlNone ["w", ".prettierrc"] =
      ([("tabWidth", CVal.num 4)], none) :=
  (loadConfigFile_decoder_order readW yamlHi tomlNone ["w", ".prettierrc"]
    [104, 105] rfl).1 [("tabWidth", CVal.num 4)] rfl

/-- C9: a path carrying a non-empty resolution error makes its task report
exactly that error as the file's failure; the result does not depend on the
engine, filesystem, configuration or arguments (no config merge, no file read,
no engine invocation), and it never increments the check counter. -/
theorem runTask_resolution_error (engine : Bytes → Doc → EngineResult)
    (statFn : Path → Option Nat) (readFn : Path → Option Bytes)
    (writeOk : Path → Bool) (eCfg : Option (Path → Option Doc)) (userCfg : Doc)
    (args : RunArgs) (p : ExpandedPath) (h : p.error ≠ "") :
    runTask engine statFn readFn writeOk eCfg userCfg args p =
      .resolutionError p.error ∧
    taskErr (runTask engine statFn readFn writeOk eCfg userCfg args p) =
      some (.resolution p.error) ∧
    taskCheckFailed (runTask engine statFn readFn writeOk eCfg userCfg args p) =
      false ∧
    (∀ engine' statFn' readFn' writeOk' eCfg' userCfg' args',
      runTask engine' statFn' readFn' writeOk' eCfg' userCfg' args' p =
        runTask engine statFn readFn writeOk eCfg userCfg args p) := by
  refine ⟨?_, ?_, ?_, ?_⟩ <;>
    simp [runTask, taskErr, taskCheckFailed, h]

/-- The expanded path of a pattern that matched nothing. -/
def pBad : ExpandedPath :=
  { filePath := [], ignoreUnknown := false,
    error := "pattern did not match any files" }

/-- C9 witness: the unmatched-pattern path is reported as exactly its
resolution error. -/
theorem runTask_resolution_error_witness :
    runTask engineOut2 statF readF writeOkAll none [] argsCheck pBad =
      .resolutionError pBad.error :=
  (runTask_resolution_error engineOut2 statF readF writeOkAll none [] argsCheck
    pBad (by decide)).1

end GoPrettier
